import Mathlib

/-
  Verification development for `param_fitting/param_constraints.py`
  (rc_ecoli_python): a grid-sweep diagnostic script that evaluates an
  error-weighted sum-of-squares objective of a whole-cell ODE model over a
  2-D grid of two log-transformed parameters.

  The script is embedded shallowly:
  * raw CSV rows become functions `ℕ → ℚ` (column index to value);
  * jax/numpy arrays become Lean lists; `.at[i].set v` becomes `List.set`;
  * machine floats become exact rationals (or reals where the source takes
    logarithms / real powers);
  * the numpy indexing `par_xs[int(i/5)]`, which raises on out-of-range
    indices, is additionally modelled as an `Option`-returning loader.
-/

namespace ParamConstraints

/-! ## Experimental Data Loader (param_constraints.py, lines 121-158) -/

/-- Line 121: `cutoff_growthrate = 0.3` — data points with growth rates
slower than this are not considered.  (`mkRat 3 10` is the exact rational
3/10, i.e. the literal 0.3.) -/
def cutoff_growthrate : ℚ := mkRat 3 10

/-- Row access `dataset[i]`: a raw table is a list of rows, each row a
function from column index to value. -/
def rowOf (dataset : List (ℕ → ℚ)) (i : ℕ) : ℕ → ℚ :=
  dataset.getD i (fun _ => 0)

/-- Indices of the retained rows: the loop `for i in range(0, dataset.shape[0])`
keeps exactly the `i` with `dataset[i, 0] > cutoff_growthrate` (lines 128-129). -/
def retainedIdxs (dataset : List (ℕ → ℚ)) : List ℕ :=
  (List.range dataset.length).filter (fun i => cutoff_growthrate < rowOf dataset i 0)

/-- Lines 126-134, `read_setups`: for each retained row `i`, emit the pair
`(par_xs[int(i/5)], dataset[i,3] * 1000)` — nutrient quality from the
block-of-5 lookup, inducer concentration converted from uM to nM.
The nutrient-quality sequence `par_xs` is passed as a function argument. -/
def read_setups (parXs : ℕ → ℚ) (dataset : List (ℕ → ℚ)) : List (ℚ × ℚ) :=
  (retainedIdxs dataset).map (fun i => (parXs (i / 5), rowOf dataset i 3 * 1000))

/-- Real-valued instantiation of lines 126-134: identical to
`read_setups` except that the nutrient qualities live in `ℝ`, since the
source computes them by `np.logspace` (real logarithms and powers). -/
noncomputable def read_setups_real (parXs : ℕ → ℝ) (dataset : List (ℕ → ℚ)) :
    List (ℝ × ℝ) :=
  (retainedIdxs dataset).map
    (fun i => (parXs (i / 5), ((rowOf dataset i 3 : ℚ) : ℝ) * 1000))

/-- Lines 127 and 136-139, `read_measurements`: for each retained row `i`, emit
`(dataset[i,0], dataset[i,2])` — growth rate and ribosome mass fraction. -/
def read_measurements (dataset : List (ℕ → ℚ)) : List (ℚ × ℚ) :=
  (retainedIdxs dataset).map (fun i => (rowOf dataset i 0, rowOf dataset i 2))

/-- Claim C2 core: a row is retained iff its growth rate strictly exceeds the cutoff. -/
theorem retainedIdxs_mem (dataset : List (ℕ → ℚ)) (i : ℕ) :
    i ∈ retainedIdxs dataset ↔ i < dataset.length ∧ cutoff_growthrate < rowOf dataset i 0 := by
  simp [retainedIdxs, List.mem_filter, List.mem_range]

/-- Claim C2 helper: the number of retained rows never exceeds the total. -/
theorem retainedIdxs_length_le (dataset : List (ℕ → ℚ)) :
    (retainedIdxs dataset).length ≤ dataset.length := by
  calc (retainedIdxs dataset).length ≤ (List.range dataset.length).length :=
        List.length_filter_le _ _
    _ = dataset.length := List.length_range _

/-- C2: the loader emits one Setup/Measurement pair per row exactly when the
row's growth rate (column 0) strictly exceeds the cutoff 0.3: a row index is
retained iff its column-0 entry exceeds `cutoff_growthrate`, the setups and
measurements tables have one entry per retained row, and the retained count
is at most the total row count. -/
theorem c2_loader_retains_iff_growth_above_cutoff
    (parXs : ℕ → ℚ) (dataset : List (ℕ → ℚ)) :
    (∀ i, i ∈ retainedIdxs dataset ↔
        i < dataset.length ∧ cutoff_growthrate < rowOf dataset i 0)
    ∧ (read_setups parXs dataset).length = (retainedIdxs dataset).length
    ∧ (read_measurements dataset).length = (retainedIdxs dataset).length
    ∧ (retainedIdxs dataset).length ≤ dataset.length := by
  refine ⟨fun i => retainedIdxs_mem dataset i, ?_, ?_, retainedIdxs_length_le dataset⟩
  · simp [read_setups]
  · simp [read_measurements]

/-- C5: for each retained row, the loaded inducer concentration is the raw
column-3 value times exactly 1000, and dividing the loaded value by 1000
recovers the raw value exactly. -/
theorem c5_inducer_times_1000_roundtrip
    (parXs : ℕ → ℚ) (dataset : List (ℕ → ℚ)) (k : ℕ)
    (hk : k < (read_setups parXs dataset).length) :
    ((read_setups parXs dataset).getD k (0, 0)).2 =
      rowOf dataset ((retainedIdxs dataset).getD k 0) 3 * 1000
    ∧ ((read_setups parXs dataset).getD k (0, 0)).2 / 1000 =
      rowOf dataset ((retainedIdxs dataset).getD k 0) 3 := by
  have hk' : k < (retainedIdxs dataset).length := by
    simpa [read_setups] using hk
  constructor
  · rw [List.getD_eq_getElem _ _ hk, List.getD_eq_getElem _ _ hk']
    simp [read_setups]
  · rw [List.getD_eq_getElem _ _ hk, List.getD_eq_getElem _ _ hk']
    simp [read_setups]

/-- A one-row dataset with growth rate 1 (> 0.3) and inducer concentration
7/2, used as concrete witness input for the loader theorems. -/
def witnessDataset : List (ℕ → ℚ) :=
  [fun c => if c = 0 then 1 else if c = 2 then mkRat 1 5 else
    if c = 3 then mkRat 7 2 else 0]

theorem c5_inducer_times_1000_roundtrip_witness :
    0 < (read_setups (fun _ => (0 : ℚ)) witnessDataset).length
    ∧ (((read_setups (fun _ => (0 : ℚ)) witnessDataset).getD 0 (0, 0)).2 =
        rowOf witnessDataset ((retainedIdxs witnessDataset).getD 0 0) 3 * 1000
      ∧ ((read_setups (fun _ => (0 : ℚ)) witnessDataset).getD 0 (0, 0)).2 / 1000 =
        rowOf witnessDataset ((retainedIdxs witnessDataset).getD 0 0) 3) :=
  ⟨by decide, c5_inducer_times_1000_roundtrip (fun _ => 0) witnessDataset 0 (by decide)⟩

/-! ## Measurement error tables (param_constraints.py, lines 144-158) -/

/-- Column-wise mean of a raw table: `error_dataset[:, c].mean()` (line 158). -/
def meanCol (tbl : List (ℕ → ℚ)) (c : ℕ) : ℚ :=
  (tbl.map (fun r => r c)).sum / tbl.length

/-- Lines 144-154, `unscaled_errors`: for each retained row `i` (same filter
on the measurement dataset as the loader), the pair
`(error_dataset[i,0], error_dataset[i,2])`. -/
def unscaled_errors (dataset errorDataset : List (ℕ → ℚ)) : List (ℚ × ℚ) :=
  (retainedIdxs dataset).map (fun i => (rowOf errorDataset i 0, rowOf errorDataset i 2))

/-- Line 158, `exp_errors`:
`jnp.ones(unscaled_errors.shape) * [[error_dataset[:,0].mean(), error_dataset[:,2].mean()]]`
— a ones matrix of the retained shape times the broadcast row of column
means, i.e. the same mean pair at every retained row. -/
def exp_errors (dataset errorDataset : List (ℕ → ℚ)) : List (ℚ × ℚ) :=
  (unscaled_errors dataset errorDataset).map
    (fun _ => (1 * meanCol errorDataset 0, 1 * meanCol errorDataset 2))

/-- C4: the error scales are constant across all retained setups — every row
of `exp_errors` is exactly the pair of column means of the raw error table,
and there is one such row per retained row. -/
theorem c4_error_scales_constant_mean
    (dataset errorDataset : List (ℕ → ℚ)) (k : ℕ)
    (hk : k < (exp_errors dataset errorDataset).length) :
    (exp_errors dataset errorDataset).getD k (0, 0) =
      (meanCol errorDataset 0, meanCol errorDataset 2)
    ∧ (exp_errors dataset errorDataset).length = (retainedIdxs dataset).length := by
  constructor
  · rw [List.getD_eq_getElem _ _ hk]
    simp [exp_errors]
  · simp [exp_errors, unscaled_errors]

/-- A one-row error table with error 1/10 on the growth rate and 1/50 on the
ribosome fraction, used as concrete witness input. -/
def witnessErrorTable : List (ℕ → ℚ) :=
  [fun c => if c = 0 then mkRat 1 10 else if c = 2 then mkRat 1 50 else 5]

theorem c4_error_scales_constant_mean_witness :
    0 < (exp_errors witnessDataset witnessErrorTable).length
    ∧ ((exp_errors witnessDataset witnessErrorTable).getD 0 (0, 0) =
        (meanCol witnessErrorTable 0, meanCol witnessErrorTable 2)
      ∧ (exp_errors witnessDataset witnessErrorTable).length =
        (retainedIdxs witnessDataset).length) :=
  ⟨by decide, c4_error_scales_constant_mean witnessDataset witnessErrorTable 0 (by decide)⟩

/-! ## State Vector Constructor (param_constraints.py, lines 162-165) -/

/-- Line 163: `x0s_unswapped = jnp.multiply(np.ones((setups.shape[0], len(x0_default))), x0_default)`
(line 163): one row per setup, each row the ones row times the default
initial state. -/
def x0s_unswapped (x0_default : List ℚ) (setups : List (ℚ × ℚ)) : List (List ℚ) :=
  setups.map (fun _ => x0_default.map (fun v => 1 * v))

/-- Column update `rows.at[:, j].set(vals)`: in row `r`, position `j` becomes
`vals[r]`. -/
def set_column (rows : List (List ℚ)) (j : ℕ) (vals : List ℚ) : List (List ℚ) :=
  rows.zipWith (fun row v => row.set j v) vals

/-- Lines 164-165, `x0s`: set column 7 to the setups' nutrient qualities,
then column 8 to the setups' inducer concentrations. -/
def x0s (x0_default : List ℚ) (setups : List (ℚ × ℚ)) : List (List ℚ) :=
  set_column (set_column (x0s_unswapped x0_default setups) 7 (setups.map Prod.fst))
    8 (setups.map Prod.snd)

/-- Row-wise characterization of the construction: each output row is the
default vector with positions 7 and 8 overwritten by the setup's values. -/
theorem x0s_eq_map (x0_default : List ℚ) (setups : List (ℚ × ℚ)) :
    x0s x0_default setups =
      setups.map (fun s => (x0_default.set 7 s.1).set 8 s.2) := by
  induction setups with
  | nil => rfl
  | cons s rest ih =>
      simpa [x0s, x0s_unswapped, set_column] using ih

/-- Reading a `List.set` with `getD` at a different position is unchanged. -/
theorem getD_set_of_ne (l : List ℚ) (i j : ℕ) (a : ℚ) (h : i ≠ j) :
    (l.set i a).getD j 0 = l.getD j 0 := by
  rcases Nat.lt_or_ge j l.length with hjl | hjl
  · rw [List.getD_eq_getElem _ _ (by simpa using hjl), List.getD_eq_getElem _ _ hjl]
    exact List.getElem_set_of_ne h a _
  · rw [List.getD_eq_default _ _ (by simpa using hjl), List.getD_eq_default _ _ hjl]

/-- Reading a `List.set` with `getD` at the set position yields the new value. -/
theorem getD_set_self (l : List ℚ) (i : ℕ) (a : ℚ) (hi : i < l.length) :
    (l.set i a).getD i 0 = a := by
  rw [List.getD_eq_getElem _ _ (by simpa using hi)]
  simp

/-- C3: each constructed initial State Vector equals the default at every
entry except positions 7 and 8, which carry the corresponding Setup's
nutrient quality and inducer concentration; the default vector itself is
untouched by the construction (the update is `jnp`'s functional `.at[].set`,
embedded as `List.set`, which never mutates its argument). -/
theorem c3_x0_rows_default_except_7_8
    (x0_default : List ℚ) (setups : List (ℚ × ℚ)) (k : ℕ)
    (hk : k < setups.length) (hd : 8 < x0_default.length) :
    ((x0s x0_default setups).getD k []).length = x0_default.length
    ∧ (∀ j, j ≠ 7 → j ≠ 8 →
        ((x0s x0_default setups).getD k []).getD j 0 = x0_default.getD j 0)
    ∧ ((x0s x0_default setups).getD k []).getD 7 0 = (setups.getD k (0, 0)).1
    ∧ ((x0s x0_default setups).getD k []).getD 8 0 = (setups.getD k (0, 0)).2 := by
  have hk' : k < (x0s x0_default setups).length := by
    rw [x0s_eq_map]; simpa using hk
  have hrow : (x0s x0_default setups).getD k [] =
      (x0_default.set 7 (setups.getD k (0, 0)).1).set 8 (setups.getD k (0, 0)).2 := by
    rw [List.getD_eq_getElem _ _ hk', List.getD_eq_getElem _ _ hk]
    simp only [x0s_eq_map]
    rw [List.getElem_map]
  refine ⟨?_, ?_, ?_, ?_⟩
  · rw [hrow]; simp
  · intro j hj7 hj8
    rw [hrow, getD_set_of_ne _ _ _ _ (fun h => hj8 h.symm),
      getD_set_of_ne _ _ _ _ (fun h => hj7 h.symm)]
  · rw [hrow, getD_set_of_ne _ _ _ _ (by simp),
      getD_set_self _ _ _ (by omega)]
  · rw [hrow, getD_set_self _ _ _ (by simpa using hd)]

/-- A concrete default initial state of length 9 for the witness. -/
def witnessDefaultX0 : List ℚ := [10, 11, 12, 13, 14, 15, 16, 17, 18]

theorem c3_x0_rows_default_except_7_8_witness :
    (0 < ([((2 : ℚ), (3 : ℚ))] : List (ℚ × ℚ)).length ∧ 8 < witnessDefaultX0.length)
    ∧ (((x0s witnessDefaultX0 [(2, 3)]).getD 0 []).length = witnessDefaultX0.length
      ∧ (∀ j, j ≠ 7 → j ≠ 8 →
          ((x0s witnessDefaultX0 [(2, 3)]).getD 0 []).getD j 0 = witnessDefaultX0.getD j 0)
      ∧ ((x0s witnessDefaultX0 [(2, 3)]).getD 0 []).getD 7 0 =
          (([((2 : ℚ), (3 : ℚ))] : List (ℚ × ℚ)).getD 0 (0, 0)).1
      ∧ ((x0s witnessDefaultX0 [(2, 3)]).getD 0 []).getD 8 0 =
          (([((2 : ℚ), (3 : ℚ))] : List (ℚ × ℚ)).getD 0 (0, 0)).2) :=
  ⟨⟨by decide, by decide⟩,
    c3_x0_rows_default_except_7_8 witnessDefaultX0 [(2, 3)] 0 (by decide) (by decide)⟩

/-! ## Equally spaced sequences: `np.linspace` / `np.logspace` -/

/-- Semantics of `np.linspace(a, b, n)` (endpoint included): entry `k` is
`a + k * (b - a) / (n - 1)`. -/
noncomputable def linspace (a b : ℝ) (n : ℕ) : List ℝ :=
  (List.range n).map (fun k : ℕ => a + (k : ℝ) * ((b - a) / ((n : ℝ) - 1)))

theorem linspace_length (a b : ℝ) (n : ℕ) : (linspace a b n).length = n := by
  rw [linspace, List.length_map, List.length_range]

/-- Line 125: `par_xs = np.logspace(np.log10(0.08), np.log10(0.5), 6)` (line 125):
10 raised to each of 6 equally spaced exponents from log10(0.08) to
log10(0.5). -/
noncomputable def par_xs : List ℝ :=
  (linspace (Real.logb 10 0.08) (Real.logb 10 0.5) 6).map (fun e => (10 : ℝ) ^ e)

/-- Closed form of the `k`-th entry of `par_xs`. -/
noncomputable def par_xs_seq (k : ℕ) : ℝ :=
  (10 : ℝ) ^ (Real.logb 10 0.08 +
    k * ((Real.logb 10 0.5 - Real.logb 10 0.08) / ((6 : ℝ) - 1)))

theorem par_xs_eq_map_seq : par_xs = (List.range 6).map par_xs_seq := by
  simp only [par_xs, linspace, List.map_map]
  refine List.map_congr_left ?_
  intro k _
  rfl

theorem par_xs_length : par_xs.length = 6 := by
  rw [par_xs_eq_map_seq, List.length_map, List.length_range]

theorem par_xs_getD (m : ℕ) (hm : m < 6) : par_xs.getD m 0 = par_xs_seq m := by
  rw [par_xs_eq_map_seq]
  have hm' : m < ((List.range 6).map par_xs_seq).length := by simpa using hm
  rw [List.getD_eq_getElem _ _ hm']
  simp

/-- The common log-increment of `par_xs`. -/
noncomputable def par_xs_logstep : ℝ :=
  (Real.logb 10 0.5 - Real.logb 10 0.08) / ((6 : ℝ) - 1)

theorem par_xs_seq_strictMono : StrictMono par_xs_seq := by
  intro a b hab
  have h10 : (1 : ℝ) < 10 := by norm_num
  rw [par_xs_seq, par_xs_seq, Real.rpow_lt_rpow_left_iff h10]
  have hstep : (0 : ℝ) < (Real.logb 10 0.5 - Real.logb 10 0.08) / ((6 : ℝ) - 1) := by
    have hlt : Real.logb 10 0.08 < Real.logb 10 0.5 :=
      Real.logb_lt_logb h10 (by norm_num) (by norm_num)
    have h5 : (0 : ℝ) < (6 : ℝ) - 1 := by norm_num
    exact div_pos (sub_pos.mpr hlt) h5
  have hcast : (a : ℝ) < (b : ℝ) := by exact_mod_cast hab
  nlinarith

theorem par_xs_seq_zero : par_xs_seq 0 = 0.08 := by
  have h : par_xs_seq 0 = (10 : ℝ) ^ (Real.logb 10 0.08) := by
    rw [par_xs_seq]
    norm_num
  rw [h, Real.rpow_logb (by norm_num) (by norm_num) (by norm_num)]

theorem par_xs_seq_five : par_xs_seq 5 = 0.5 := by
  have h : par_xs_seq 5 = (10 : ℝ) ^ (Real.logb 10 0.5) := by
    rw [par_xs_seq]
    push_cast
    ring_nf
  rw [h, Real.rpow_logb (by norm_num) (by norm_num) (by norm_num)]

theorem par_xs_seq_equal_logstep (m : ℕ) :
    Real.logb 10 (par_xs_seq (m + 1)) - Real.logb 10 (par_xs_seq m) = par_xs_logstep := by
  rw [par_xs_seq, par_xs_seq, par_xs_logstep,
    Real.logb_rpow (by norm_num) (by norm_num),
    Real.logb_rpow (by norm_num) (by norm_num)]
  push_cast
  ring

/-- C8: the nutrient quality stored for the retained row at position `k`
(source row index `i`) is entry `i / 5` of `par_xs`; that sequence has 6
entries, runs from 0.08 up to 0.5, is strictly ascending, and its entries
are equally spaced in log scale. -/
theorem c8_nutrient_quality_blocks_of_five
    (dataset : List (ℕ → ℚ)) (k : ℕ)
    (hk : k < (retainedIdxs dataset).length)
    (hi : (retainedIdxs dataset).getD k 0 < 30) :
    ((read_setups_real (fun m => par_xs.getD m 0) dataset).getD k (0, 0)).1 =
      par_xs_seq ((retainedIdxs dataset).getD k 0 / 5)
    ∧ par_xs.length = 6
    ∧ par_xs_seq 0 = 0.08
    ∧ par_xs_seq 5 = 0.5
    ∧ (∀ a b : ℕ, a < b → par_xs_seq a < par_xs_seq b)
    ∧ (∀ m : ℕ, Real.logb 10 (par_xs_seq (m + 1)) - Real.logb 10 (par_xs_seq m) =
        par_xs_logstep) := by
  refine ⟨?_, par_xs_length, par_xs_seq_zero, par_xs_seq_five,
    fun a b hab => par_xs_seq_strictMono hab, par_xs_seq_equal_logstep⟩
  have hk' : k < (read_setups_real (fun m => par_xs.getD m 0) dataset).length := by
    simpa [read_setups_real] using hk
  rw [List.getD_eq_getElem _ _ hk] at hi
  rw [List.getD_eq_getElem _ _ hk', List.getD_eq_getElem _ _ hk]
  simp only [read_setups_real, List.getElem_map]
  exact par_xs_getD _ (by omega)

theorem c8_nutrient_quality_blocks_of_five_witness :
    (0 < (retainedIdxs witnessDataset).length ∧ (retainedIdxs witnessDataset).getD 0 0 < 30)
    ∧ (((read_setups_real (fun m => par_xs.getD m 0) witnessDataset).getD 0 (0, 0)).1 =
        par_xs_seq ((retainedIdxs witnessDataset).getD 0 0 / 5)
      ∧ par_xs.length = 6
      ∧ par_xs_seq 0 = 0.08
      ∧ par_xs_seq 5 = 0.5
      ∧ (∀ a b : ℕ, a < b → par_xs_seq a < par_xs_seq b)
      ∧ (∀ m : ℕ, Real.logb 10 (par_xs_seq (m + 1)) - Real.logb 10 (par_xs_seq m) =
          par_xs_logstep)) :=
  ⟨⟨by decide, by decide⟩,
    c8_nutrient_quality_blocks_of_five witnessDataset 0 (by decide) (by decide)⟩

/-! ## Grid Sweep Driver (param_constraints.py, lines 207-222) -/

/-- Line 210: `K_range = jnp.linspace(jnp.log(0.1), jnp.log(30), 51) + jnp.log(par['K_e'])`
(line 210).  The model constant `K_e` comes from the external cell model, so
it is a parameter here. -/
noncomputable def K_range (K_e : ℝ) : List ℝ :=
  (linspace (Real.log 0.1) (Real.log 30) 51).map (fun v => v + Real.log K_e)

/-- Line 211: `kcm_range = jnp.linspace(jnp.log(0.1), jnp.log(30), 51) + jnp.log(par['kcm'])`
(line 211). -/
noncomputable def kcm_range (kcm : ℝ) : List ℝ :=
  (linspace (Real.log 0.1) (Real.log 30) 51).map (fun v => v + Real.log kcm)

/-- The sweep loop (lines 217-222): `loglikes` starts as
`np.zeros((K_range.shape[0], kcm_range.shape[0]))` and every cell `(i, j)` is
assigned `minus_sos((parvec_default.at[1].set(K_range[i])).at[3].set(kcm_range[j]))`,
so the final table is exactly this row-of-rows. -/
noncomputable def loglikes (minus_sos : List ℝ → ℝ) (parvec_default : List ℝ)
    (K_rg kcm_rg : List ℝ) : List (List ℝ) :=
  K_rg.map (fun Ki => kcm_rg.map (fun kj =>
    minus_sos ((parvec_default.set 1 Ki).set 3 kj)))

/-- C1: the Result Surface holds, at each `(i, j)`, the Objective Function
value of the baseline candidate vector with entry 1 overwritten by the
`i`-th axis-1 value and entry 3 overwritten by the `j`-th axis-2 value; its
shape is exactly `(51, 51)`. -/
theorem c1_grid_sweep_cells_and_shape
    (minus_sos : List ℝ → ℝ) (parvec_default : List ℝ) (K_e kcm : ℝ)
    (i j : ℕ) (hi : i < 51) (hj : j < 51) :
    ((loglikes minus_sos parvec_default (K_range K_e) (kcm_range kcm)).getD i []).getD j 0 =
      minus_sos ((parvec_default.set 1 ((K_range K_e).getD i 0)).set 3
        ((kcm_range kcm).getD j 0))
    ∧ (loglikes minus_sos parvec_default (K_range K_e) (kcm_range kcm)).length = 51
    ∧ (∀ row ∈ loglikes minus_sos parvec_default (K_range K_e) (kcm_range kcm),
        row.length = 51) := by
  have hKlen : (K_range K_e).length = 51 := by simp [K_range, linspace_length]
  have hklen : (kcm_range kcm).length = 51 := by simp [kcm_range, linspace_length]
  refine ⟨?_, ?_, ?_⟩
  · have hi' : i < (loglikes minus_sos parvec_default (K_range K_e) (kcm_range kcm)).length := by
      simpa [loglikes, hKlen] using hi
    have hi2 : i < (K_range K_e).length := by rw [hKlen]; exact hi
    have hj2 : j < (kcm_range kcm).length := by rw [hklen]; exact hj
    rw [List.getD_eq_getElem _ _ hi']
    simp only [loglikes, List.getElem_map]
    have hj' : j < ((kcm_range kcm).map (fun kj =>
        minus_sos ((parvec_default.set 1 ((K_range K_e).get ⟨i, hi2⟩)).set 3 kj))).length := by
      simpa using hj2
    rw [List.getD_eq_getElem _ _ (by simpa using hj2), List.getElem_map]
    rw [List.getD_eq_getElem _ _ hi2, List.getD_eq_getElem _ _ hj2]
  · simp [loglikes, hKlen]
  · intro row hrow
    simp only [loglikes, List.mem_map] at hrow
    obtain ⟨Ki, _, hrw⟩ := hrow
    rw [← hrw]
    simpa using hklen

theorem c1_grid_sweep_cells_and_shape_witness :
    ((0 : ℕ) < 51 ∧ (0 : ℕ) < 51)
    ∧ (((loglikes (fun _ => 0) [] (K_range 1) (kcm_range 1)).getD 0 []).getD 0 0 =
        (fun _ => (0 : ℝ)) ((([] : List ℝ).set 1 ((K_range 1).getD 0 0)).set 3
          ((kcm_range 1).getD 0 0))
      ∧ (loglikes (fun _ => 0) [] (K_range 1) (kcm_range 1)).length = 51
      ∧ (∀ row ∈ loglikes (fun _ => 0) [] (K_range 1) (kcm_range 1), row.length = 51)) :=
  ⟨⟨by decide, by decide⟩,
    c1_grid_sweep_cells_and_shape (fun _ => 0) [] 1 1 0 0 (by decide) (by decide)⟩

/-! ## Out-of-range nutrient-quality lookup (param_constraints.py, line 131) -/

/-- The numpy indexing `par_xs[int(i / 5)]` (line 131) made explicitly
partial: `none` models the IndexError raised when `int(i/5)` falls outside
the array. -/
def par_x_lookup (parXs : List ℚ) (i : ℕ) : Option ℚ := parXs.get? (i / 5)

/-- The retained-row loop of lines 128-134 with the partial lookup made
explicit, one retained index at a time. -/
def read_setups_loop (parXs : List ℚ) (dataset : List (ℕ → ℚ)) :
    List ℕ → Option (List (ℚ × ℚ))
  | [] => some []
  | i :: is =>
      (par_x_lookup parXs i).bind (fun px =>
        (read_setups_loop parXs dataset is).map
          (fun rest => (px, rowOf dataset i 3 * 1000) :: rest))

/-- The loader over all retained rows, failing (like the script) as soon as
one nutrient-quality lookup is out of range. -/
def read_setups_checked (parXs : List ℚ) (dataset : List (ℕ → ℚ)) :
    Option (List (ℚ × ℚ)) :=
  read_setups_loop parXs dataset (retainedIdxs dataset)

theorem read_setups_loop_isSome (parXs : List ℚ) (dataset : List (ℕ → ℚ))
    (l : List ℕ) :
    (read_setups_loop parXs dataset l).isSome ↔
      ∀ i ∈ l, (par_x_lookup parXs i).isSome := by
  induction l with
  | nil => simp [read_setups_loop]
  | cons i is ih =>
      cases hpx : par_x_lookup parXs i with
      | none => simp [read_setups_loop, hpx]
      | some px =>
          simp only [read_setups_loop, hpx, Option.some_bind, Option.isSome_map',
            List.forall_mem_cons]
          simp [ih, hpx]

theorem par_x_lookup_isSome (parXs : List ℚ) (i : ℕ) (h6 : parXs.length = 6) :
    (par_x_lookup parXs i).isSome ↔ i < 30 := by
  rw [par_x_lookup, List.get?_eq_getElem?]
  constructor
  · intro h
    by_contra hn
    rw [List.getElem?_eq_none (by omega)] at h
    simp at h
  · intro h
    rw [List.getElem?_eq_getElem (by omega)]
    rfl

/-- C10: with the 6-entry nutrient-quality table, the lookup for row `i` is
in bounds exactly when `i < 30`; the loader succeeds exactly when every
retained row index is below 30, and one retained index of 30 or more makes
it fail. -/
theorem c10_lookup_in_bounds_iff_row_below_30
    (parXs : List ℚ) (dataset : List (ℕ → ℚ)) (i : ℕ) (h6 : parXs.length = 6) :
    ((par_x_lookup parXs i).isSome ↔ i < 30)
    ∧ ((read_setups_checked parXs dataset).isSome ↔
        ∀ j ∈ retainedIdxs dataset, j < 30)
    ∧ (∀ j ∈ retainedIdxs dataset, 30 ≤ j →
        read_setups_checked parXs dataset = none) := by
  have hchar : (read_setups_checked parXs dataset).isSome ↔
      ∀ j ∈ retainedIdxs dataset, j < 30 := by
    rw [read_setups_checked, read_setups_loop_isSome]
    constructor
    · intro h j hj
      exact (par_x_lookup_isSome parXs j h6).mp (h j hj)
    · intro h j hj
      exact (par_x_lookup_isSome parXs j h6).mpr (h j hj)
  refine ⟨par_x_lookup_isSome parXs i h6, hchar, ?_⟩
  intro j hj hge
  rw [← Option.not_isSome_iff_eq_none]
  intro hsome
  exact absurd (hchar.mp hsome j hj) (by omega)

/-- A dataset whose only retained row sits at index 30 (30 rows below the
growth-rate cutoff, then one above it), exercising the failure branch. -/
def witnessDatasetRow30 : List (ℕ → ℚ) :=
  (List.replicate 30 (fun _ => (0 : ℚ))) ++ [fun _ => (1 : ℚ)]

theorem c10_lookup_in_bounds_iff_row_below_30_witness :
    ([(1 : ℚ), 2, 3, 4, 5, 6].length = 6)
    ∧ (((par_x_lookup [(1 : ℚ), 2, 3, 4, 5, 6] 0).isSome ↔ (0 : ℕ) < 30)
      ∧ ((read_setups_checked [(1 : ℚ), 2, 3, 4, 5, 6] witnessDatasetRow30).isSome ↔
          ∀ j ∈ retainedIdxs witnessDatasetRow30, j < 30)
      ∧ (∀ j ∈ retainedIdxs witnessDatasetRow30, 30 ≤ j →
          read_setups_checked [(1 : ℚ), 2, 3, 4, 5, 6] witnessDatasetRow30 = none)) :=
  ⟨by decide,
    c10_lookup_in_bounds_iff_row_below_30 [(1 : ℚ), 2, 3, 4, 5, 6]
      witnessDatasetRow30 0 (by decide)⟩

/-! ## Objective Function (param_constraints.py, lines 198-203) -/

/-- Modelled from the spec: the error-weighted sum of squared residuals of
section 4.5 — the sum over all setups and both observables of
`((predicted - measured) / error_scale)^2`.  The underlying helper
`minus_sos_for_parvec` lives in `param_fitting/mcmc_fit.py`, which is not
among these sources. -/
noncomputable def sos_residuals (pred meas errs : List (ℝ × ℝ)) : ℝ :=
  ((pred.zip (meas.zip errs)).map (fun pme =>
    ((pme.1.1 - pme.2.1.1) / pme.2.2.1) ^ 2 +
    ((pme.1.2 - pme.2.1.2) / pme.2.2.2) ^ 2)).sum

/-- Modelled from the spec: `minus_sos_for_parvec` from
`param_fitting/mcmc_fit.py` — exponentiate the log-space candidate vector,
run the batch integrator on all per-setup initial states under the
substituted parameters, extract the `(l, phi_r)` observables, and return the
error-weighted sum of squares.  The integrator and the observable extractor
enter as function arguments; they are fixed data for a given sweep. -/
noncomputable def minus_sos_for_parvec
    (integrator : List ℝ → List (List ℝ) → List (List ℝ))
    (get_l_phir : List (List ℝ) → List (ℝ × ℝ))
    (x0states : List (List ℝ)) (measurements errs : List (ℝ × ℝ))
    (parvec : List ℝ) : ℝ :=
  sos_residuals (get_l_phir (integrator (parvec.map Real.exp) x0states))
    measurements errs

/-- Lines 200-203, `minus_sos`: the objective function obtained by fixing
the integrator, extractor and experimental tables. -/
noncomputable def minus_sos
    (integrator : List ℝ → List (List ℝ) → List (List ℝ))
    (get_l_phir : List (List ℝ) → List (ℝ × ℝ))
    (x0states : List (List ℝ)) (measurements errs : List (ℝ × ℝ)) :
    List ℝ → ℝ :=
  fun parvec =>
    minus_sos_for_parvec integrator get_l_phir x0states measurements errs parvec

/-- C6: with the integrator, extractor, initial states, measurements and
error scales all fixed, two independent invocations of the Objective
Function on the same candidate vector return identical scalars — the
embedded objective is a pure function of its inputs. -/
theorem c6_objective_deterministic
    (integrator : List ℝ → List (List ℝ) → List (List ℝ))
    (get_l_phir : List (List ℝ) → List (ℝ × ℝ))
    (x0states : List (List ℝ)) (measurements errs : List (ℝ × ℝ))
    (parvec : List ℝ) :
    minus_sos integrator get_l_phir x0states measurements errs parvec =
      minus_sos integrator get_l_phir x0states measurements errs parvec :=
  rfl

/-! ## Batch Steady-State Integrator configuration (lines 167-191) -/

/-- Modelled from the spec: diffrax's `Dopri5` (line 183) is the
Dormand-Prince 5(4) method, an explicit Runge-Kutta scheme of order 5
(diffrax itself is an external library). -/
inductive ODESolver where
  | dopri5
deriving DecidableEq

/-- Modelled from the spec: whether the scheme is an explicit Runge-Kutta
method. -/
def solver_explicit_rk : ODESolver → Bool
  | .dopri5 => true

/-- Modelled from the spec: the order of the scheme. -/
def solver_order : ODESolver → ℕ
  | .dopri5 => 5

/-- Line 184: `PIDController(rtol=rtol, atol=atol)` — an adaptive step-size
controller with the given tolerances. -/
structure StepsizeController where
  adaptive : Bool
  rtol : ℚ
  atol : ℚ
deriving DecidableEq

/-- Line 185: `SteadyStateEvent(rtol=0.001, atol=0.001)` — the
early-termination steady-state condition's tolerances. -/
structure SteadyStateEventCfg where
  rtol : ℚ
  atol : ℚ
deriving DecidableEq

/-- The arguments fixed by `diffeqsolve_forx0` (lines 186-191) together with
the solver objects they close over (lines 168-185). -/
structure DiffeqsolveConfig where
  solver : ODESolver
  t0 : ℚ
  t1 : ℚ
  dt0 : ℚ
  max_steps : Option ℕ
  controller : StepsizeController
  terminating_event : SteadyStateEventCfg
deriving DecidableEq

/-- Lines 167-191: `tf = (0, 48)`, `dt0 = 0.1`, `rtol = atol = 1e-6`,
`max_steps=None`, `Dopri5()`, `PIDController(rtol, atol)`,
`SteadyStateEvent(rtol=0.001, atol=0.001)`. -/
def diffeqsolve_forx0_config : DiffeqsolveConfig where
  solver := .dopri5
  t0 := 0
  t1 := 48
  dt0 := mkRat 1 10
  max_steps := none
  controller := { adaptive := true, rtol := mkRat 1 1000000, atol := mkRat 1 1000000 }
  terminating_event := { rtol := mkRat 1 1000, atol := mkRat 1 1000 }

/-- C9: the integrator is configured with an explicit Runge-Kutta solver of
order 5, an adaptive controller with absolute and relative tolerances 1e-6,
horizon [0, 48] with initial step 0.1, no step-count bound, and a
steady-state termination event with tolerances 0.001. -/
theorem c9_integrator_configuration :
    solver_explicit_rk diffeqsolve_forx0_config.solver = true
    ∧ solver_order diffeqsolve_forx0_config.solver = 5
    ∧ diffeqsolve_forx0_config.controller.adaptive = true
    ∧ diffeqsolve_forx0_config.controller.rtol = 1 / 1000000
    ∧ diffeqsolve_forx0_config.controller.atol = 1 / 1000000
    ∧ diffeqsolve_forx0_config.t0 = 0
    ∧ diffeqsolve_forx0_config.t1 = 48
    ∧ diffeqsolve_forx0_config.dt0 = 1 / 10
    ∧ diffeqsolve_forx0_config.max_steps = none
    ∧ diffeqsolve_forx0_config.terminating_event.rtol = 1 / 1000
    ∧ diffeqsolve_forx0_config.terminating_event.atol = 1 / 1000 := by
  have h6 : (mkRat 1 1000000 : ℚ) = 1 / 1000000 := by
    rw [Rat.mkRat_eq_divInt, Rat.divInt_eq_div]; norm_num
  have h10 : (mkRat 1 10 : ℚ) = 1 / 10 := by
    rw [Rat.mkRat_eq_divInt, Rat.divInt_eq_div]; norm_num
  have h3 : (mkRat 1 1000 : ℚ) = 1 / 1000 := by
    rw [Rat.mkRat_eq_divInt, Rat.divInt_eq_div]; norm_num
  exact ⟨rfl, rfl, rfl, h6, h6, rfl, rfl, h10, rfl, h3, h3⟩

/-! ## Result Surface persistence (param_constraints.py, lines 223-231)

`pickle.dump` / `pickle.load` are external-library calls, so the binary
format is modelled from the spec: a lossless, self-describing serialization
of the 2-D array.  A serialized stream is a list of tokens, each either a
length header (`Sum.inl`) or an exact array element (`Sum.inr`); writing
emits the row count, then each row's length followed by its elements, and
reading parses that back. -/

/-- Modelled from the spec: `pickle.dump(loglikes, file)` (line 225) — the
serialized form of the Result Surface. -/
def dump_surface (s : List (List ℚ)) : List (ℕ ⊕ ℚ) :=
  Sum.inl s.length :: (s.map (fun row => Sum.inl row.length :: row.map Sum.inr)).flatten

/-- Parse `n` array elements off the front of the stream. -/
def load_entries : ℕ → List (ℕ ⊕ ℚ) → Option (List ℚ × List (ℕ ⊕ ℚ))
  | 0, ts => some ([], ts)
  | n + 1, Sum.inr q :: ts =>
      (load_entries n ts).map (fun pr => (q :: pr.1, pr.2))
  | _ + 1, _ => none

/-- Parse `m` rows (each a length header then its elements) off the stream. -/
def load_rows : ℕ → List (ℕ ⊕ ℚ) → Option (List (List ℚ) × List (ℕ ⊕ ℚ))
  | 0, ts => some ([], ts)
  | m + 1, Sum.inl n :: ts =>
      (load_entries n ts).bind (fun pr =>
        (load_rows m pr.2).map (fun qr => (pr.1 :: qr.1, qr.2)))
  | _ + 1, _ => none

/-- Modelled from the spec: `pickle.load(file)` (line 230) — deserialize a
stream produced by a full dump, requiring the stream to be consumed
exactly. -/
def load_surface (ts : List (ℕ ⊕ ℚ)) : Option (List (List ℚ)) :=
  match ts with
  | Sum.inl m :: rest =>
      match load_rows m rest with
      | some (s, []) => some s
      | _ => none
  | _ => none

theorem load_entries_roundtrip (row : List ℚ) (rest : List (ℕ ⊕ ℚ)) :
    load_entries row.length (row.map Sum.inr ++ rest) = some (row, rest) := by
  induction row with
  | nil => rfl
  | cons q qs ih => simp [load_entries, ih]

theorem load_rows_roundtrip (s : List (List ℚ)) (rest : List (ℕ ⊕ ℚ)) :
    load_rows s.length
      ((s.map (fun row => Sum.inl row.length :: row.map Sum.inr)).flatten ++ rest) =
      some (s, rest) := by
  induction s with
  | nil => rfl
  | cons row rows ih =>
      simp only [List.map_cons, List.flatten_cons, List.length_cons, List.cons_append,
        List.append_eq, List.append_assoc, load_rows, load_entries_roundtrip,
        Option.some_bind, ih,
        Option.map_some']

/-- C7: serializing the Result Surface and deserializing it again yields the
original array exactly, element for element — the persistence round-trip is
lossless. -/
theorem c7_surface_persistence_roundtrip (s : List (List ℚ)) :
    load_surface (dump_surface s) = some s := by
  have h := load_rows_roundtrip s []
  rw [List.append_nil] at h
  simp [load_surface, dump_surface, h]

end ParamConstraints
